import Mathlib

/-!
Shallow embedding of the perfume-dashboard core (src/app.py) and proofs about
its data-cleaning and aggregation pipeline.

Modelling conventions:
* a pandas cell that may be NaN/missing is an `Option`;
* Python floats are modelled exactly as rationals (`ℚ`): every numeric text the
  cleaning routine accepts denotes a finite decimal, which we keep exact
  instead of rounding to IEEE 754;
* a DataFrame is a list of records, in row order;
* `sort_values(ascending=False)` is modelled as pandas implements it
  (pandas.core.sorting.nargsort): an ascending argsort followed by a reversal
  of the index array.  The model's ascending sort is stable (insertion sort);
  numpy's default argsort coincides with a stable sort on short runs (it is
  plain insertion sort up to 16 elements) but is not documented stable beyond
  that, so universally quantified theorems use the model only for properties
  independent of tie order, and tie order is stated only at concrete fixtures
  small enough to be in the stable regime;
* `groupby(key)` is modelled with its defaults `sort=True, dropna=True`:
  group keys are the distinct non-null keys in ascending order;
* Python string comparison (used by `groupby`'s key sort) is lexicographic
  comparison of the code-point sequences, embedded by `lexLe` below;
* Python's `str.isdigit` and the digit handling of `int()`/`float()` are
  Unicode-aware; they are embedded by `pyIsDigit`/`pyDecimalVal` over an
  explicit table of the code-point blocks this development touches, and
  universally quantified theorems about the filter restrict inputs to ASCII,
  where the table is complete.
-/

namespace Perfumes

/-! ### FieldNormalizer: `limpiar_numero` (src/app.py lines 33-38) -/

/-- Decimal value of a character, per Unicode `Numeric_Type=Decimal`
(general category Nd), for the code-point blocks this development touches:
the ASCII digits and the Arabic-Indic digits U+0660 to U+0669.  Python's
`int()`/`float()` map every decimal digit to its value; a character accepted
by `str.isdigit` without a decimal value (see `pyDigitNotDecimal`) makes
`int()`/`float()` raise.  Unicode has further Nd blocks not listed here;
every universally quantified theorem below restricts its inputs to ASCII,
where this table is complete. -/
def pyDecimalVal (c : Char) : Option ℕ :=
  if 48 ≤ c.toNat ∧ c.toNat ≤ 57 then some (c.toNat - 48)
  else if 1632 ≤ c.toNat ∧ c.toNat ≤ 1641 then some (c.toNat - 1632)
  else none

/-- Characters accepted by Python's `str.isdigit` that are not decimal
digits (Unicode `Numeric_Type=Digit`), for the code points this development
touches: the superscript digits one, two and three. -/
def pyDigitNotDecimal (c : Char) : Bool :=
  c == '¹' || c == '²' || c == '³'

/-- Embedding of Python's Unicode-aware `str.isdigit` on the repertoire
above: true on a decimal digit or a digit-type character.  On characters of
code point below 128 it coincides exactly with the ASCII digit test
(`pyIsDigit_ascii`). -/
def pyIsDigit (c : Char) : Bool :=
  (pyDecimalVal c).isSome || pyDigitNotDecimal c

/-- Predicate of the character filter in `limpiar_numero`:
`lambda x: x.isdigit() or (x == '.' and es_float)`. -/
def keepChar (es_float : Bool) (c : Char) : Bool :=
  pyIsDigit c || (c == '.' && es_float)

/-- Candidate string built by `limpiar_numero`:
`''.join(filter(lambda x: x.isdigit() or (x == '.' and es_float), str(texto)))`. -/
def limpio (es_float : Bool) (s : List Char) : List Char :=
  s.filter (keepChar es_float)

/-- Value of a run of digit characters as Python's `int()`/`float()` read
it: `none` as soon as a character has no decimal value (digit-type
characters such as superscripts make the parse raise). -/
def decDigitsVal (cs : List Char) : Option ℕ :=
  cs.foldl
    (fun acc c =>
      match acc, pyDecimalVal c with
      | some n, some d => some (10 * n + d)
      | _, _ => none)
    (some 0)

/-- Outcome of Python `float()` on a string made only of `str.isdigit`
characters and dots (the only strings `limpiar_numero` ever passes to it in
float mode): it succeeds iff the string has at most one dot, at least one
non-dot character, and every non-dot character is a decimal digit; the
parts are (integer part, fractional part, number of fractional digits). -/
def floatParts (cs : List Char) : Option (ℕ × ℕ × ℕ) :=
  if cs.count '.' ≤ 1 ∧ cs.any (· ≠ '.') then
    match decDigitsVal (cs.takeWhile (· ≠ '.')),
        decDigitsVal ((cs.dropWhile (· ≠ '.')).drop 1) with
    | some i, some f => some (i, f, ((cs.dropWhile (· ≠ '.')).drop 1).length)
    | _, _ => none
  else none

/-- Rational denoted by a successful `float()` parse; a failed parse is the
`except` branch of `limpiar_numero` and yields the default `0.0`. -/
def ratOfParts : Option (ℕ × ℕ × ℕ) → ℚ
  | none => 0
  | some (i, f, k) => (i : ℚ) + (f : ℚ) / 10 ^ k

/-- Outcome of Python `int()` on a string made only of `str.isdigit`
characters (the only strings `limpiar_numero` ever passes to it in integer
mode): it succeeds iff the string is non-empty and every character is a
decimal digit. -/
def intParts (cs : List Char) : Option ℕ :=
  if cs ≠ [] then decDigitsVal cs else none

/-- Embedding of `limpiar_numero(texto, es_float=True)`: `None`/NaN input gives
`0.0`; otherwise keep digits and dots, parse as float, defaulting to `0.0`
when the parse raises. -/
def limpiar_numero_float (texto : Option String) : ℚ :=
  match texto with
  | none => 0
  | some s => ratOfParts (floatParts (limpio true s.toList))

/-- Embedding of `limpiar_numero(texto, es_float=False)`: `None`/NaN input
gives `0`; otherwise keep digits only, parse as int, defaulting to `0` when
the parse raises. -/
def limpiar_numero_int (texto : Option String) : ℕ :=
  match texto with
  | none => 0
  | some s => (intParts (limpio false s.toList)).getD 0

/-! ### DatasetLoader: `cargar_datos` (src/app.py lines 19-31) -/

/-- Row of one source CSV, with the raw column names.  Any cell can be missing
(pandas NaN). -/
structure RawRow where
  brand : Option String
  title : Option String
  price : Option String
  available : Option String
  sold : Option String
  itemLocation : Option String
deriving DecidableEq, Repr

/-- Row of the unified table: the six source columns renamed to their display
names, plus the `Genero` column assigned from source identity. -/
structure Row where
  Marca : Option String
  Titulo : Option String
  Precio_Texto : Option String
  Disponibles : Option String
  Vendidos_Texto : Option String
  Ubicacion : Option String
  Genero : String
deriving DecidableEq, Repr

/-- Per-row effect of `.assign(Genero=...)` followed by the column rename.
In the source the rename is applied to the concatenated frame, but renaming
is a per-row, per-column relabelling, so it commutes with concatenation. -/
def assignRename (genero : String) (r : RawRow) : Row :=
  { Marca := r.brand
    Titulo := r.title
    Precio_Texto := r.price
    Disponibles := r.available
    Vendidos_Texto := r.sold
    Ubicacion := r.itemLocation
    Genero := genero }

/-- Successful body of `cargar_datos`: tag the men's rows with `Hombre`, the
women's rows with `Mujer`, and concatenate (`ignore_index=True` renumbers rows
but keeps their order). -/
def buildUnified (df_m df_w : List RawRow) : List Row :=
  df_m.map (assignRename "Hombre") ++ df_w.map (assignRename "Mujer")

/-- Embedding of `cargar_datos`: each source is `none` when its file is
missing/unreadable (the `FileNotFoundError` branch returns `None`, so a
missing source fails the whole load). -/
def cargar_datos (srcM srcW : Option (List RawRow)) : Option (List Row) :=
  match srcM, srcW with
  | some dfm, some dfw => some (buildUnified dfm dfw)
  | _, _ => none

/-- Outcome of the load guard at src/app.py lines 40-44: on `None` the app
shows `st.error("Faltan los archivos CSV.")` and calls `st.stop()`; otherwise
the session continues with the loaded table. -/
inductive SessionOutcome where
  | fatal (msg : String)
  | dashboard (df : List Row)
deriving DecidableEq, Repr

/-- Embedding of the `df = cargar_datos(); if df is None: st.error(...);
st.stop()` sequence. -/
def runSession (srcM srcW : Option (List RawRow)) : SessionOutcome :=
  match cargar_datos srcM srcW with
  | none => SessionOutcome.fatal "Faltan los archivos CSV."
  | some df => SessionOutcome.dashboard df

/-! ### Normalized rows (src/app.py lines 46-48) -/

/-- Row after `df['Precio'] = ...` and `df['Vendidos'] = ...` have been added.
The aggregation views below consume this shape. -/
structure NRow where
  Marca : Option String
  Titulo : Option String
  Precio_Texto : Option String
  Disponibles : Option String
  Vendidos_Texto : Option String
  Ubicacion : Option String
  Genero : String
  Precio : ℚ
  Vendidos : ℕ
deriving DecidableEq, Repr

/-- Per-row effect of the two `.apply(lambda x: limpiar_numero(x, ...))`
columns. -/
def normalizeRow (r : Row) : NRow :=
  { Marca := r.Marca
    Titulo := r.Titulo
    Precio_Texto := r.Precio_Texto
    Disponibles := r.Disponibles
    Vendidos_Texto := r.Vendidos_Texto
    Ubicacion := r.Ubicacion
    Genero := r.Genero
    Precio := limpiar_numero_float r.Precio_Texto
    Vendidos := limpiar_numero_int r.Vendidos_Texto }

/-- Normalization applied to the whole unified table. -/
def normalizeTable (t : List Row) : List NRow :=
  t.map normalizeRow

/-! ### Python string order, for the `groupby` key sort -/

/-- Lexicographic order on code-point sequences: Python's `<=` on strings,
which is what pandas' `groupby(sort=True)` uses to order string group keys. -/
def lexLe : List Char → List Char → Bool
  | [], _ => true
  | _ :: _, [] => false
  | a :: as, b :: bs =>
    if a.toNat < b.toNat then true
    else if b.toNat < a.toNat then false
    else lexLe as bs

/-- Python string comparison lifted to `String`. -/
def brandLe (a b : String) : Prop := lexLe a.toList b.toList = true

instance : DecidableRel brandLe := fun _ _ => instDecidableEqBool _ _

/-- Comparison by a natural-number sort key, the ascending order underlying
`sort_values` on the `Vendidos` column. -/
def leKey {α : Type} (key : α → ℕ) (a b : α) : Prop := key a ≤ key b

instance {α : Type} (key : α → ℕ) : DecidableRel (leKey key) :=
  fun _ _ => Nat.decLe _ _

/-- Model of `sort_values(ascending=False)` on a natural-number key: pandas
(pandas.core.sorting.nargsort) computes an ascending argsort with the
default `kind='quicksort'` and reverses the resulting index order.  The
model's ascending sort is a stable insertion sort; numpy's introsort is
plain insertion sort (hence stable) on runs of at most 16 elements but is
not documented stable beyond that.  The theorems below therefore use this
model only for properties independent of tie order (key-sortedness, length,
membership, permutation of the input) and state tie order only at concrete
fixtures small enough to be in the stable regime. -/
def sortValuesDesc {α : Type} (key : α → ℕ) (xs : List α) : List α :=
  (xs.insertionSort (leKey key)).reverse

/-! ### AggregationViews (src/app.py lines 67-71, 104, 108, 122-124, 143) -/

/-- Total of the `Vendidos` column over the rows of a brand group:
one entry of `groupby('Marca')['Vendidos'].sum()`. -/
def brandSum (t : List NRow) (b : String) : ℕ :=
  ((t.filter (fun r => decide (r.Marca = some b))).map NRow.Vendidos).sum

/-- Group keys of `groupby('Marca')`: the distinct non-null brands (default
`dropna=True` discards NaN keys) in ascending order (default `sort=True`). -/
def uniqueBrandsSorted (t : List NRow) : List String :=
  ((t.filterMap NRow.Marca).dedup).insertionSort brandLe

/-- Embedding of `groupby('Marca')['Vendidos'].sum()`: brand-indexed sums,
keys ascending. -/
def groupedSums (t : List NRow) : List (String × ℕ) :=
  (uniqueBrandsSorted t).map (fun b => (b, brandSum t b))

/-- Embedding of the "Todas" branch at src/app.py line 104:
`groupby('Marca')['Vendidos'].sum().sort_values(ascending=False).head(limit)`
(the source instantiates `limit` at 10). -/
def topBrandsByVolume (t : List NRow) (limit : ℕ) : List (String × ℕ) :=
  (sortValuesDesc Prod.snd (groupedSums t)).take limit

/-- Embedding of the brand branch at src/app.py line 108:
`df[df['Marca'] == marca].sort_values('Vendidos', ascending=False).head(limit)`
(the source instantiates `limit` at 10). -/
def topProductsForBrand (t : List NRow) (marca : String) (limit : ℕ) :
    List NRow :=
  (sortValuesDesc NRow.Vendidos
    (t.filter (fun r => decide (r.Marca = some marca)))).take limit

/-- Summary cards of src/app.py lines 67-71.  `meanPrice` is `none` exactly
when pandas' `Series.mean()` of an empty column is NaN. -/
structure Metrics where
  count : ℕ
  meanPrice : Option ℚ
  totalSold : ℕ
  distinctBrandCount : ℕ
deriving DecidableEq, Repr

/-- Embedding of the four `st.metric` values: `shape[0]`, `Precio.mean()`,
`Vendidos.sum()` and `Marca.nunique()` (which counts distinct non-null
values). -/
def summaryMetrics (t : List NRow) : Metrics :=
  { count := t.length
    meanPrice :=
      if t.length = 0 then none
      else some (((t.map NRow.Precio).sum) / (t.length : ℚ))
    totalSold := ((t.map NRow.Vendidos).sum)
    distinctBrandCount := ((t.filterMap NRow.Marca).dedup).length }

/-- Embedding of the violin-tab filter `df_global[df_global['Precio'] < 300]`
(src/app.py line 143), with the ceiling as a parameter. -/
def filterByPriceCeiling (t : List NRow) (c : ℚ) : List NRow :=
  t.filter (fun r => decide (r.Precio < c))

/-- Embedding of `df_global[df_global['Marca'].isin(sel)]` (src/app.py lines
122-124): `isin` on a list of strings is false on a NaN brand. -/
def filterByBrandSubset (t : List NRow) (brands : List String) : List NRow :=
  t.filter (fun r =>
    match r.Marca with
    | some b => brands.contains b
    | none => false)

/-! ### Order theory for `lexLe` (Python string comparison) -/

lemma lexLe_cons_iff {a b : Char} {as bs : List Char} :
    lexLe (a :: as) (b :: bs) = true ↔
      a.toNat < b.toNat ∨ (a.toNat = b.toNat ∧ lexLe as bs = true) := by
  simp only [lexLe]
  split_ifs with h1 h2
  · simp [h1]
  · simp only [Bool.false_eq_true, false_iff]
    rintro (h | ⟨h, _⟩) <;> omega
  · constructor
    · intro h
      exact Or.inr ⟨by omega, h⟩
    · rintro (h | ⟨_, h⟩)
      · omega
      · exact h

lemma lexLe_total : ∀ as bs : List Char, lexLe as bs = true ∨ lexLe bs as = true
  | [], _ => Or.inl rfl
  | _ :: _, [] => Or.inr rfl
  | a :: as, b :: bs => by
    rcases Nat.lt_trichotomy a.toNat b.toNat with h | h | h
    · exact Or.inl (lexLe_cons_iff.mpr (Or.inl h))
    · rcases lexLe_total as bs with ih | ih
      · exact Or.inl (lexLe_cons_iff.mpr (Or.inr ⟨h, ih⟩))
      · exact Or.inr (lexLe_cons_iff.mpr (Or.inr ⟨h.symm, ih⟩))
    · exact Or.inr (lexLe_cons_iff.mpr (Or.inl h))

lemma lexLe_trans :
    ∀ as bs cs : List Char,
      lexLe as bs = true → lexLe bs cs = true → lexLe as cs = true
  | [], _, _, _, _ => rfl
  | _ :: _, [], _, h, _ => by simp [lexLe] at h
  | _ :: _, _ :: _, [], _, h => by simp [lexLe] at h
  | a :: as, b :: bs, c :: cs, h1, h2 => by
    rw [lexLe_cons_iff] at h1 h2 ⊢
    rcases h1 with h1 | ⟨h1e, h1t⟩ <;> rcases h2 with h2 | ⟨h2e, h2t⟩
    · exact Or.inl (by omega)
    · exact Or.inl (by omega)
    · exact Or.inl (by omega)
    · exact Or.inr ⟨by omega, lexLe_trans as bs cs h1t h2t⟩

instance : IsTotal String brandLe :=
  ⟨fun a b => lexLe_total a.toList b.toList⟩

instance : IsTrans String brandLe :=
  ⟨fun a b c => lexLe_trans a.toList b.toList c.toList⟩

instance {α : Type} (key : α → ℕ) : IsTotal α (leKey key) :=
  ⟨fun a b => Nat.le_total (key a) (key b)⟩

instance {α : Type} (key : α → ℕ) : IsTrans α (leKey key) :=
  ⟨fun _ _ _ h1 h2 => Nat.le_trans h1 h2⟩

/-! ### Generic facts about the descending sort model -/

lemma sortValuesDesc_perm {α : Type} (key : α → ℕ) (xs : List α) :
    List.Perm (sortValuesDesc key xs) xs :=
  (List.reverse_perm _).trans (List.perm_insertionSort _ _)

lemma pairwise_key_sortValuesDesc {α : Type} (key : α → ℕ) (xs : List α) :
    (sortValuesDesc key xs).Pairwise (fun a b => key b ≤ key a) := by
  rw [sortValuesDesc, List.pairwise_reverse]
  exact List.sorted_insertionSort (leKey key) xs

/-! ### Helper lemmas for the normalizer claims -/

lemma char_zero_le_iff {c : Char} : '0' ≤ c ↔ 48 ≤ c.toNat := Iff.rfl

lemma char_le_nine_iff {c : Char} : c ≤ '9' ↔ c.toNat ≤ 57 := Iff.rfl

lemma pyIsDigit_ascii {c : Char} (hc : c.toNat < 128) :
    pyIsDigit c = true ↔ (48 ≤ c.toNat ∧ c.toNat ≤ 57) := by
  rw [pyIsDigit, Bool.or_eq_true]
  constructor
  · rintro (h | h)
    · simp only [pyDecimalVal] at h
      split_ifs at h with hA hB
      · exact hA
      · omega
      · simp at h
    · rw [pyDigitNotDecimal] at h
      simp only [Bool.or_eq_true, beq_iff_eq] at h
      rcases h with (rfl | rfl) | rfl <;> exact absurd hc (by decide)
  · intro h
    left
    simp only [pyDecimalVal]
    rw [if_pos h]
    rfl

lemma keepChar_true_eq_ascii {c : Char} (hc : c.toNat < 128) :
    keepChar true c = decide (('0' ≤ c ∧ c ≤ '9') ∨ c = '.') := by
  rw [keepChar]
  simp only [Bool.and_true]
  by_cases h1 : 48 ≤ c.toNat ∧ c.toNat ≤ 57
  · rw [(pyIsDigit_ascii hc).mpr h1, Bool.true_or]
    exact (decide_eq_true (Or.inl ⟨char_zero_le_iff.mpr h1.1,
      char_le_nine_iff.mpr h1.2⟩)).symm
  · have hd : pyIsDigit c = false := by
      rw [← Bool.not_eq_true, pyIsDigit_ascii hc]
      exact h1
    rw [hd, Bool.false_or]
    by_cases h3 : c = '.'
    · rw [h3]
      decide
    · have hb1 : (c == '.') = false := by simp [h3]
      rw [hb1]
      symm
      rw [decide_eq_false_iff_not]
      rintro (hcon | rfl)
      · exact h1 ⟨char_zero_le_iff.mp hcon.1, char_le_nine_iff.mp hcon.2⟩
      · exact h3 rfl

lemma keepChar_false_eq_ascii {c : Char} (hc : c.toNat < 128) :
    keepChar false c = decide ('0' ≤ c ∧ c ≤ '9') := by
  rw [keepChar]
  simp only [Bool.and_false, Bool.or_false]
  by_cases h1 : 48 ≤ c.toNat ∧ c.toNat ≤ 57
  · rw [(pyIsDigit_ascii hc).mpr h1]
    exact (decide_eq_true ⟨char_zero_le_iff.mpr h1.1,
      char_le_nine_iff.mpr h1.2⟩).symm
  · have hd : pyIsDigit c = false := by
      rw [← Bool.not_eq_true, pyIsDigit_ascii hc]
      exact h1
    rw [hd]
    symm
    rw [decide_eq_false_iff_not]
    exact fun hcon => h1 ⟨char_zero_le_iff.mp hcon.1,
      char_le_nine_iff.mp hcon.2⟩

lemma ratOfParts_nonneg (o : Option (ℕ × ℕ × ℕ)) : 0 ≤ ratOfParts o := by
  rcases o with _ | ⟨i, f, k⟩
  · exact le_refl 0
  · show (0 : ℚ) ≤ (i : ℚ) + (f : ℚ) / 10 ^ k
    positivity

lemma count_dot_limpio (s : List Char) :
    (limpio true s).count '.' = s.count '.' := by
  rw [limpio, List.count_filter]
  rfl

/-! ### Claim theorems -/

/-- C1 counterexample: Python's `str.isdigit` is not the ASCII digit test,
so keeping exactly the ASCII digits fails off ASCII: the Arabic-Indic digit
U+0663 is kept and parsed, giving 3 where the claim predicts the default 0
(no ASCII digit present), and the superscript two is kept without a decimal
value, making `int()` raise, giving 0 on "2" followed by superscript two
where the claim predicts 2. -/
theorem limpiar_numero_not_ascii_only :
    limpiar_numero_int (some "٣") = 3 ∧
    limpiar_numero_int (some "٣") ≠ 0 ∧
    limpiar_numero_int (some "2²") = 0 ∧
    limpiar_numero_int (some "2²") ≠ 2 := by
  refine ⟨by decide, by decide, by decide, by decide⟩

/-- C1 (amended): `limpiar_numero` follows the documented extraction
algorithm with the filter being Python's Unicode-aware `str.isdigit`: on
text made of ASCII characters the candidate keeps, in original order,
exactly the ASCII digits (plus every dot in float mode); off ASCII,
`str.isdigit` admits further Unicode digit characters (see the
counterexample).  A failed parse of the candidate yields the default, any
text with two or more dots yields `0.0` in float mode, and the four
documented examples hold (`12.99` being the exact rational `1299/100`). -/
theorem limpiar_numero_extraction_spec :
    (∀ s : String, (∀ c ∈ s.toList, c.toNat < 128) →
      limpio true s.toList =
        s.toList.filter (fun c => decide (('0' ≤ c ∧ c ≤ '9') ∨ c = '.'))) ∧
    (∀ s : String, (∀ c ∈ s.toList, c.toNat < 128) →
      limpio false s.toList =
        s.toList.filter (fun c => decide ('0' ≤ c ∧ c ≤ '9'))) ∧
    (∀ s : String, floatParts (limpio true s.toList) = none →
      limpiar_numero_float (some s) = 0) ∧
    (∀ s : String, intParts (limpio false s.toList) = none →
      limpiar_numero_int (some s) = 0) ∧
    (∀ s : String, 2 ≤ s.toList.count '.' →
      limpiar_numero_float (some s) = 0) ∧
    limpiar_numero_float (some "$12.99") = 1299 / 100 ∧
    limpiar_numero_int (some "12 sold") = 12 ∧
    limpiar_numero_int (some "N/A") = 0 ∧
    limpiar_numero_float (some "1.2.3") = 0 := by
  refine ⟨?_, ?_, ?_, ?_, ?_, ?_, by decide, by decide, ?_⟩
  · intro s hs
    exact List.filter_congr (fun c hcm => keepChar_true_eq_ascii (hs c hcm))
  · intro s hs
    exact List.filter_congr (fun c hcm => keepChar_false_eq_ascii (hs c hcm))
  · intro s h
    show ratOfParts (floatParts (limpio true s.toList)) = 0
    rw [h]
    rfl
  · intro s h
    show (intParts (limpio false s.toList)).getD 0 = 0
    rw [h]
    rfl
  · intro s h
    show ratOfParts (floatParts (limpio true s.toList)) = 0
    have hnone : floatParts (limpio true s.toList) = none := by
      rw [floatParts, if_neg]
      rw [count_dot_limpio]
      omega
    rw [hnone]
    rfl
  · show ratOfParts (floatParts (limpio true "$12.99".toList)) = 1299 / 100
    rw [show floatParts (limpio true "$12.99".toList) = some (12, 99, 2) from
      by decide]
    show (12 : ℚ) + (99 : ℚ) / 10 ^ 2 = 1299 / 100
    norm_num
  · show ratOfParts (floatParts (limpio true "1.2.3".toList)) = 0
    rw [show floatParts (limpio true "1.2.3".toList) = none from by decide]
    rfl

/-- C1 witness: the ASCII filter clause applied at the ASCII input
`"$12.99"` and the parse-failure clauses at `"1.2.3"` and `"???"`, every
hypothesis discharged by computation. -/
theorem limpiar_numero_extraction_spec_witness :
    limpio true "$12.99".toList =
      "$12.99".toList.filter
        (fun c => decide (('0' ≤ c ∧ c ≤ '9') ∨ c = '.')) ∧
    limpiar_numero_float (some "1.2.3") = 0 ∧
    limpiar_numero_int (some "???") = 0 :=
  ⟨limpiar_numero_extraction_spec.1 "$12.99" (by decide),
    limpiar_numero_extraction_spec.2.2.2.2.1 "1.2.3" (by decide),
    limpiar_numero_extraction_spec.2.2.2.1 "???" (by decide)⟩

/-- C2: `limpiar_numero` is total by construction (it is a Lean function into
`ℚ` resp. `ℕ`); missing input returns the zero default of each mode, and the
float-mode result is never negative (the filter strips minus signs, so only
nonnegative decimals can be parsed).  The integer mode returns `ℕ`, hence its
cast to `ℤ` is nonnegative. -/
theorem limpiar_numero_total_nonneg :
    limpiar_numero_float none = 0 ∧ limpiar_numero_int none = 0 ∧
    (∀ texto : Option String, 0 ≤ limpiar_numero_float texto) ∧
    (∀ texto : Option String, 0 ≤ (limpiar_numero_int texto : ℤ)) := by
  refine ⟨rfl, rfl, ?_, ?_⟩
  · intro texto
    cases texto with
    | none => exact le_refl 0
    | some s => exact ratOfParts_nonneg _
  · intro texto
    exact Int.natCast_nonneg _

/-- C5: a missing source fails the whole load (`cargar_datos` returns the
`None` sentinel), and the session then halts with the fatal message and no
dashboard. -/
theorem cargar_datos_missing_source (srcM srcW : Option (List RawRow))
    (h : srcM = none ∨ srcW = none) :
    cargar_datos srcM srcW = none ∧
      runSession srcM srcW = SessionOutcome.fatal "Faltan los archivos CSV." := by
  have hc : cargar_datos srcM srcW = none := by
    cases srcM with
    | none => cases srcW <;> rfl
    | some dfm =>
      cases srcW with
      | none => rfl
      | some dfw => rcases h with h | h <;> exact absurd h (by simp)
  exact ⟨hc, by rw [runSession, hc]⟩

/-- C5 witness: only the women's source present; the load fails and the
session is fatal. -/
theorem cargar_datos_missing_source_witness :
    cargar_datos none (some []) = none ∧
      runSession none (some []) = SessionOutcome.fatal "Faltan los archivos CSV." :=
  cargar_datos_missing_source none (some []) (Or.inl rfl)

/-- C7: the summary metrics of the empty table are computed, not an error:
zero rows, zero total sold, zero distinct brands, and the mean price is the
NaN sentinel (modelled `none`). -/
theorem summaryMetrics_empty :
    summaryMetrics ([] : List NRow) =
      { count := 0, meanPrice := none, totalSold := 0,
        distinctBrandCount := 0 } := rfl

/-- Fixture raw rows for the loader claims. -/
def rawA : RawRow :=
  { brand := some "A", title := some "tA", price := some "$10",
    available := none, sold := some "5 sold", itemLocation := some "US" }

/-- Second fixture raw row. -/
def rawB : RawRow :=
  { brand := some "B", title := some "tB", price := some "$20",
    available := none, sold := some "3 sold", itemLocation := some "UK" }

/-- C3: the unified table has exactly M+N rows; row i (i < M) is the i-th
men's source row renamed and tagged `Hombre`, row M+j is the j-th women's
source row renamed and tagged `Mujer`; the rename maps exactly the six
canonical columns and the tag fills the new `Genero` column. -/
theorem buildUnified_spec (xs ys : List RawRow) :
    (buildUnified xs ys).length = xs.length + ys.length ∧
    (∀ i, i < xs.length →
      (buildUnified xs ys)[i]? = (xs[i]?).map (assignRename "Hombre")) ∧
    (∀ j, (buildUnified xs ys)[xs.length + j]? =
      (ys[j]?).map (assignRename "Mujer")) ∧
    (∀ g r, (assignRename g r).Marca = r.brand ∧
      (assignRename g r).Titulo = r.title ∧
      (assignRename g r).Precio_Texto = r.price ∧
      (assignRename g r).Disponibles = r.available ∧
      (assignRename g r).Vendidos_Texto = r.sold ∧
      (assignRename g r).Ubicacion = r.itemLocation ∧
      (assignRename g r).Genero = g) := by
  refine ⟨by simp [buildUnified], ?_, ?_, ?_⟩
  · intro i hi
    rw [buildUnified, List.getElem?_append_left (by simpa using hi),
      List.getElem?_map]
  · intro j
    rw [buildUnified, List.getElem?_append_right (by simp),
      List.getElem?_map, List.length_map, Nat.add_sub_cancel_left]
  · intro g r
    exact ⟨rfl, rfl, rfl, rfl, rfl, rfl, rfl⟩

/-- C3 witness: a one-row men's source and a one-row women's source produce
the two expected tagged rows in order. -/
theorem buildUnified_spec_witness :
    (buildUnified [rawA] [rawB]).length = 1 + 1 ∧
    (buildUnified [rawA] [rawB])[0]? = some (assignRename "Hombre" rawA) ∧
    (buildUnified [rawA] [rawB])[1]? = some (assignRename "Mujer" rawB) := by
  refine ⟨(buildUnified_spec [rawA] [rawB]).1, ?_, ?_⟩
  · have h := (buildUnified_spec [rawA] [rawB]).2.1 0 (by decide)
    simpa using h
  · have h := (buildUnified_spec [rawA] [rawB]).2.2.1 0
    simpa using h

/-- Fixture builder for normalized rows: only the fields the aggregation
claims read are varied. -/
def mkNRow (marca : Option String) (titulo : String) (precio : ℚ)
    (vendidos : ℕ) : NRow :=
  { Marca := marca, Titulo := some titulo, Precio_Texto := none,
    Disponibles := none, Vendidos_Texto := none, Ubicacion := none,
    Genero := "Hombre", Precio := precio, Vendidos := vendidos }

/-- C8: the price-ceiling filter keeps, in order, exactly the rows with
price strictly below the ceiling; a row whose price equals the ceiling is
excluded. -/
theorem filterByPriceCeiling_spec (t : List NRow) (c : ℚ) :
    List.Sublist (filterByPriceCeiling t c) t ∧
    (∀ r, r ∈ filterByPriceCeiling t c ↔ r ∈ t ∧ r.Precio < c) ∧
    (∀ r, r ∈ t → r.Precio = c → r ∉ filterByPriceCeiling t c) := by
  have hmem : ∀ r, r ∈ filterByPriceCeiling t c ↔ r ∈ t ∧ r.Precio < c := by
    intro r
    rw [filterByPriceCeiling, List.mem_filter, decide_eq_true_eq]
  refine ⟨List.filter_sublist t, hmem, ?_⟩
  intro r _ he hmemf
  have := ((hmem r).mp hmemf).2
  rw [he] at this
  exact lt_irrefl c this

/-- C8 witness: with ceiling 3, a price-2 row is kept and a price-3 row
(equal to the ceiling) is excluded. -/
theorem filterByPriceCeiling_spec_witness :
    mkNRow (some "A") "a" 2 1 ∈
      filterByPriceCeiling [mkNRow (some "A") "a" 2 1,
        mkNRow (some "B") "b" 3 1] 3 ∧
    mkNRow (some "B") "b" 3 1 ∉
      filterByPriceCeiling [mkNRow (some "A") "a" 2 1,
        mkNRow (some "B") "b" 3 1] 3 := by
  constructor
  · exact ((filterByPriceCeiling_spec _ 3).2.1 _).mpr
      ⟨by simp, by norm_num [mkNRow]⟩
  · exact (filterByPriceCeiling_spec _ 3).2.2 _ (by simp) rfl

/-- C9: the brand-subset filter keeps, in order, exactly the rows whose
brand is a member of the given set; the empty set selects nothing, and a set
covering every brand value present selects the whole table. -/
theorem filterByBrandSubset_spec :
    (∀ t : List NRow, filterByBrandSubset t [] = []) ∧
    (∀ (t : List NRow) (brands : List String),
      List.Sublist (filterByBrandSubset t brands) t) ∧
    (∀ (t : List NRow) (brands : List String) (r : NRow),
      r ∈ filterByBrandSubset t brands ↔
        r ∈ t ∧ ∃ b ∈ brands, r.Marca = some b) ∧
    (∀ (t : List NRow) (brands : List String),
      (∀ r ∈ t, ∃ b ∈ brands, r.Marca = some b) →
        filterByBrandSubset t brands = t) := by
  have hpred : ∀ (brands : List String) (r : NRow),
      (match r.Marca with
        | some b => brands.contains b
        | none => false) = true ↔ ∃ b ∈ brands, r.Marca = some b := by
    intro brands r
    cases hm : r.Marca with
    | none => simp
    | some b => simp [List.elem_iff]
  refine ⟨?_, ?_, ?_, ?_⟩
  · intro t
    rw [filterByBrandSubset]
    rw [List.filter_eq_nil_iff]
    intro r _
    cases r.Marca <;> simp
  · intro t brands
    exact List.filter_sublist t
  · intro t brands r
    rw [filterByBrandSubset, List.mem_filter, hpred]
  · intro t brands hall
    rw [filterByBrandSubset, List.filter_eq_self]
    intro r hr
    exact (hpred brands r).mpr (hall r hr)

/-- C9 witness: a two-brand table; the set of both brands selects the whole
table, and a singleton row is characterized by membership. -/
theorem filterByBrandSubset_spec_witness :
    filterByBrandSubset [mkNRow (some "A") "a" 2 1,
        mkNRow (some "B") "b" 3 1] ["A", "B"] =
      [mkNRow (some "A") "a" 2 1, mkNRow (some "B") "b" 3 1] := by
  apply filterByBrandSubset_spec.2.2.2
  intro r hr
  simp only [List.mem_cons, List.not_mem_nil, or_false] at hr
  rcases hr with rfl | rfl
  · exact ⟨"A", by simp, rfl⟩
  · exact ⟨"B", by simp, rfl⟩

/-! ### Facts about the brand grouping -/

lemma uniqueBrandsSorted_sorted (t : List NRow) :
    (uniqueBrandsSorted t).Pairwise brandLe :=
  List.sorted_insertionSort brandLe _

lemma uniqueBrandsSorted_nodup (t : List NRow) :
    (uniqueBrandsSorted t).Nodup :=
  (List.perm_insertionSort brandLe _).nodup_iff.mpr (List.nodup_dedup _)

lemma mem_uniqueBrandsSorted {t : List NRow} {b : String} :
    b ∈ uniqueBrandsSorted t ↔ ∃ r ∈ t, r.Marca = some b := by
  rw [uniqueBrandsSorted, List.mem_insertionSort, List.mem_dedup,
    List.mem_filterMap]

lemma mem_groupedSums {t : List NRow} {p : String × ℕ} :
    p ∈ groupedSums t ↔
      p.1 ∈ uniqueBrandsSorted t ∧ p.2 = brandSum t p.1 := by
  rw [groupedSums, List.mem_map]
  constructor
  · rintro ⟨b, hb, rfl⟩
    exact ⟨hb, rfl⟩
  · rintro ⟨hb, hp⟩
    refine ⟨p.1, hb, ?_⟩
    rw [← hp]

lemma filterMap_marca_filter_isSome (t : List NRow) :
    (t.filter (fun r => r.Marca.isSome)).filterMap NRow.Marca =
      t.filterMap NRow.Marca := by
  induction t with
  | nil => rfl
  | cons r t ih =>
    cases hm : r.Marca with
    | none => simp [List.filter_cons, List.filterMap_cons, hm, ih]
    | some b => simp [List.filter_cons, List.filterMap_cons, hm, ih]

lemma brandSum_filter_isSome (t : List NRow) (b : String) :
    brandSum (t.filter (fun r => r.Marca.isSome)) b = brandSum t b := by
  rw [brandSum, brandSum, List.filter_filter]
  have hf : t.filter (fun r => decide (r.Marca = some b) && r.Marca.isSome) =
      t.filter (fun r => decide (r.Marca = some b)) := by
    apply List.filter_congr
    intro r _
    cases hm : r.Marca <;> simp [hm]
  rw [hf]

lemma groupedSums_filter_isSome (t : List NRow) :
    groupedSums (t.filter (fun r => r.Marca.isSome)) = groupedSums t := by
  rw [groupedSums, groupedSums, uniqueBrandsSorted, uniqueBrandsSorted,
    filterMap_marca_filter_isSome]
  apply List.map_congr_left
  intro b _
  rw [brandSum_filter_isSome]

/-- C10: rows with a missing brand form no group in the brand ranking
(`groupby` drops NaN keys), so the ranking of any table equals the ranking of
the table with those rows removed; yet the summary metrics still count such
rows and include their sold counts. -/
theorem topBrandsByVolume_drops_null_brands :
    (∀ (t : List NRow) (limit : ℕ),
      topBrandsByVolume t limit =
        topBrandsByVolume (t.filter (fun r => r.Marca.isSome)) limit) ∧
    topBrandsByVolume [mkNRow none "u" 3 7] 10 = [] ∧
    (summaryMetrics [mkNRow none "u" 3 7]).count = 1 ∧
    (summaryMetrics [mkNRow none "u" 3 7]).totalSold = 7 := by
  refine ⟨?_, by decide, rfl, rfl⟩
  intro t limit
  rw [topBrandsByVolume, topBrandsByVolume, groupedSums_filter_isSome]

/-! ### The brand ranking (C4) -/

/-- Fixture with three tied brands, first encountered in the order
C, A, B. -/
def fixtureC4 : List NRow :=
  [mkNRow (some "C") "c" 1 5, mkNRow (some "A") "a" 1 5,
    mkNRow (some "B") "b" 1 5]

/-- C4 counterexample: on three tied brands first encountered as C, A, B,
the code returns them as C, B, A, not in first-encountered grouping order
C, A, B as the claim states: groupby orders the keys ascending as A, B, C,
and the descending sort reverses an ascending argsort, which on a 3-element
tied run is numpy's stable insertion sort. -/
theorem topBrandsByVolume_not_first_encountered :
    topBrandsByVolume fixtureC4 10 = [("C", 5), ("B", 5), ("A", 5)] ∧
    topBrandsByVolume fixtureC4 10 ≠ [("C", 5), ("A", 5), ("B", 5)] := by
  constructor <;> decide

/-- C4 (amended): the ranking sums sold per brand over groups keyed by the
distinct brands in ascending order, is sorted non-increasing by summed sold,
has length at most the limit, lists only brands present with their exact
group sums, and is a permutation of the whole grouped table when the limit
is large enough.  Tied groups are not returned in first-encountered grouping
order: on the tied fixture they come out C, B, A (descending brand order).
No universal tie-order clause is asserted, because beyond numpy's stable
insertion-sort regime the program's tie order is unspecified. -/
theorem topBrandsByVolume_spec (t : List NRow) (limit : ℕ) :
    (topBrandsByVolume t limit).Pairwise (fun p q => q.2 ≤ p.2) ∧
    (topBrandsByVolume t limit).length ≤ limit ∧
    (∀ p ∈ topBrandsByVolume t limit,
      (∃ r ∈ t, r.Marca = some p.1) ∧ p.2 = brandSum t p.1) ∧
    ((groupedSums t).length ≤ limit →
      List.Perm (topBrandsByVolume t limit) (groupedSums t)) ∧
    topBrandsByVolume fixtureC4 10 = [("C", 5), ("B", 5), ("A", 5)] := by
  refine ⟨?_, ?_, ?_, ?_, by decide⟩
  · exact (pairwise_key_sortValuesDesc Prod.snd (groupedSums t)).sublist
      (List.take_sublist _ _) |>.imp (fun h => h)
  · rw [topBrandsByVolume, List.length_take]
    exact min_le_left _ _
  · intro p hp
    have hmem : p ∈ groupedSums t :=
      (sortValuesDesc_perm Prod.snd (groupedSums t)).mem_iff.mp
        (List.mem_of_mem_take hp)
    have h := mem_groupedSums.mp hmem
    exact ⟨mem_uniqueBrandsSorted.mp h.1, h.2⟩
  · intro h
    have hlen : (sortValuesDesc Prod.snd (groupedSums t)).length ≤ limit := by
      rw [(sortValuesDesc_perm Prod.snd (groupedSums t)).length_eq]
      exact h
    rw [topBrandsByVolume, List.take_of_length_le hlen]
    exact sortValuesDesc_perm Prod.snd (groupedSums t)

/-- C4 witness: the amended theorem applied at the tied fixture with limit
10; its largeness hypothesis is discharged by computation, giving that the
ranking is a permutation of the three grouped sums. -/
theorem topBrandsByVolume_spec_witness :
    List.Perm (topBrandsByVolume fixtureC4 10) (groupedSums fixtureC4) :=
  (topBrandsByVolume_spec fixtureC4 10).2.2.2.1 (by decide)

/-! ### The per-brand product ranking (C6) -/

/-- First fixture row of brand X. -/
def x0 : NRow := mkNRow (some "X") "t0" 1 5

/-- Second fixture row of brand X. -/
def x1 : NRow := mkNRow (some "X") "t1" 2 5

/-- Third fixture row of brand X. -/
def x2 : NRow := mkNRow (some "X") "t2" 3 5

/-- Fixture with three rows of one brand, all tied on sold count. -/
def fixtureC6 : List NRow := [x0, x1, x2]

/-- C6 counterexample: on three rows of brand X tied on sold count, the code
returns them in reverse of their original row order, not in original row
order as the claim states: the descending sort reverses an ascending
argsort, which on a 3-row tied run is numpy's stable insertion sort. -/
theorem topProductsForBrand_not_original_order :
    topProductsForBrand fixtureC6 "X" 10 = [x2, x1, x0] ∧
    topProductsForBrand fixtureC6 "X" 10 ≠ [x0, x1, x2] := by
  constructor <;> decide

/-- C6 (amended): the per-brand ranking contains only rows of the requested
brand, is sorted non-increasing by sold, has length at most the limit, and is
a permutation of all matching rows when the limit is large enough.  Tied rows
are not returned in original row order: on the three-row tied fixture they
come out reversed.  No universal tie-order clause is asserted, because beyond
numpy's stable insertion-sort regime the program's tie order is
unspecified. -/
theorem topProductsForBrand_spec (t : List NRow) (marca : String)
    (limit : ℕ) :
    (topProductsForBrand t marca limit).Pairwise
      (fun a b => b.Vendidos ≤ a.Vendidos) ∧
    (topProductsForBrand t marca limit).length ≤ limit ∧
    (∀ r ∈ topProductsForBrand t marca limit,
      r ∈ t ∧ r.Marca = some marca) ∧
    ((t.filter (fun r => decide (r.Marca = some marca))).length ≤ limit →
      List.Perm (topProductsForBrand t marca limit)
        (t.filter (fun r => decide (r.Marca = some marca)))) ∧
    topProductsForBrand fixtureC6 "X" 10 = [x2, x1, x0] := by
  refine ⟨?_, ?_, ?_, ?_, by decide⟩
  · exact (pairwise_key_sortValuesDesc NRow.Vendidos _).sublist
      (List.take_sublist _ _) |>.imp (fun h => h)
  · rw [topProductsForBrand, List.length_take]
    exact min_le_left _ _
  · intro r hr
    have hmem : r ∈ t.filter (fun r => decide (r.Marca = some marca)) :=
      (sortValuesDesc_perm NRow.Vendidos _).mem_iff.mp
        (List.mem_of_mem_take hr)
    have h := List.mem_filter.mp hmem
    exact ⟨h.1, by simpa using h.2⟩
  · intro h
    have hlen : (sortValuesDesc NRow.Vendidos
        (t.filter (fun r => decide (r.Marca = some marca)))).length ≤ limit := by
      rw [(sortValuesDesc_perm NRow.Vendidos _).length_eq]
      exact h
    rw [topProductsForBrand, List.take_of_length_le hlen]
    exact sortValuesDesc_perm NRow.Vendidos _

/-- C6 witness: the amended theorem applied at the tied fixture with limit
10; the largeness hypothesis is discharged by computation, giving that the
ranking is a permutation of the brand's rows. -/
theorem topProductsForBrand_spec_witness :
    List.Perm (topProductsForBrand fixtureC6 "X" 10)
      (fixtureC6.filter (fun r => decide (r.Marca = some "X"))) :=
  (topProductsForBrand_spec fixtureC6 "X" 10).2.2.2.1 (by decide)

end Perfumes
